import Mathlib

/-!
Verification development for the Milo community hub messaging subsystem.

The definitions below are a shallow embedding of the messaging code:

* the MessagesProvider hook (src/hooks/posts-store.ts, lines 246-465):
  startup spool load, loadMessages, subscribeToConversation snapshots,
  sendMessage (online and offline branches) and syncOfflineMessages;
* the generic Firestore wrapper (src/database/service.ts): create,
  query/subscribe document mapping, MessageService.getMessages;
* the conversation list aggregator (src/app/(tabs)/messages.tsx):
  profile resolution effect and the chats preview derivation.

JavaScript features are modelled as follows: a Record<string, T> is an
association list in key insertion order (assignment to an existing key
keeps its position, a new key is appended); a Map built by sequential
set calls has the same semantics; AsyncStorage's single spool cell is a
three-way cell (absent, a parsed value, or a record that fails
JSON.parse); ISO timestamp strings are carried as their Date.parse
epoch-millisecond value; Date.now() and serverTimestamp() values are
explicit parameters; the remote createMessage outcome is drawn from an
explicit queue of responses so that failing backends are expressible.
-/

namespace Milo

/-- Duck-typed createdAt / updatedAt value as it arrives from the backend:
a server-timestamp object (has a toMillis method), an ISO-8601 string
(resolved by Date.parse; carried here as the parsed epoch milliseconds),
or anything else (unresolvable). -/
inductive TsVal where
  | server (ms : Int)
  | iso (ms : Int)
  | unresolved
deriving DecidableEq, Repr

/-- Timestamp resolution used by every client-side sort comparator in the
source: toMillis() when available, Date.parse for strings, 0 otherwise. -/
def resolveTs : TsVal → Int
  | .server ms => ms
  | .iso ms => ms
  | .unresolved => 0

/-- Message attachment (type tag and URL). -/
structure Attachment where
  atype : String
  url : String
deriving DecidableEq, Repr

/-- The fields of a message document other than its identifier, mirroring
the base record built by sendMessage.  Fields that the source always sets
to undefined (editedAt, replyTo) are omitted: pruneUndefined drops them
before any write, so they are never observable. -/
structure MessageData where
  senderId : String
  receiverId : String
  content : String
  mtype : String
  attachments : List Attachment
  isRead : Bool
  isDelivered : Bool
  deliveredAt : Option Int
  isEdited : Bool
  status : String
  conversationId : String
  createdAt : TsVal
  updatedAt : TsVal
deriving DecidableEq, Repr

/-- A message as held in client state: identifier plus document fields. -/
structure Message where
  id : String
  data : MessageData
deriving DecidableEq, Repr

/-! ### JavaScript record / Map semantics -/

/-- Lookup in a string-keyed record (association list). -/
def recFind? {α : Type} : List (String × α) → String → Option α
  | [], _ => none
  | p :: r, k => if p.1 = k then some p.2 else recFind? r k

/-- Record read with the source's default: spool[cid] ?? [] and
next[conversationId] ?? []. -/
def recGet (r : List (String × List Message)) (k : String) : List Message :=
  (recFind? r k).getD []

/-- Record assignment r[k] = v: an existing key keeps its position and is
overwritten, a new key is appended (JS string-key insertion order; a JS
object holds each key at most once, so replacing the first occurrence is
the faithful model, and it is also exactly Map.prototype.set). -/
def recSet {α : Type} : List (String × α) → String → α → List (String × α)
  | [], k, v => [(k, v)]
  | p :: r, k, v => if p.1 = k then (k, v) :: r else p :: recSet r k v

/-- The pair list of new Map(msgs.map(m => [m.id, m])): sequential set
calls, later entries overwriting earlier ones in place. -/
def dedupPairs (msgs : List Message) : List (String × Message) :=
  msgs.foldl (fun acc m => recSet acc m.id m) []

/-- Array.from(new Map(msgs.map(m => [m.id, m])).values()): deduplication
by identifier, later entries in iteration order winning, each surviving
entry at the position of its first occurrence. -/
def dedupById (msgs : List Message) : List Message :=
  (dedupPairs msgs).map Prod.snd

/-! ### The client-side sort

The source sorts with Array.prototype.sort and the comparator
(a, b) => resolveTs(a.createdAt) - resolveTs(b.createdAt).  JS sort is
stable, and a stable ascending sort is uniquely determined by the key
function, so insertion sort with the reflexive key order is a faithful
embedding. -/

/-- Comparator order: ascending resolved creation timestamp. -/
def tsLe (a b : Message) : Prop :=
  resolveTs a.data.createdAt ≤ resolveTs b.data.createdAt

instance : DecidableRel tsLe := fun a b =>
  inferInstanceAs (Decidable (resolveTs a.data.createdAt ≤ resolveTs b.data.createdAt))

instance : IsTotal Message tsLe :=
  ⟨fun a b => Int.le_total (resolveTs a.data.createdAt) (resolveTs b.data.createdAt)⟩

instance : IsTrans Message tsLe :=
  ⟨fun _ _ _ h1 h2 => le_trans h1 h2⟩

/-- Stable ascending sort by resolved creation timestamp. -/
def sortByTs (l : List Message) : List Message :=
  l.insertionSort tsLe

/-! ### System state

The persisted spool cell models AsyncStorage.getItem("offlineMessagesSpool")
followed by JSON.parse: the key may be absent (getItem returns null, the
source substitutes an empty record), hold a record that parses, or hold a
record whose parse throws. -/

inductive SpoolCell where
  | absent
  | valid (spool : List (String × List Message))
  | corrupt
deriving DecidableEq, Repr

/-- A document of the remote messages collection.  docId is the
server-assigned document identifier; idField is the id field stored inside
the document data when the caller passed one (the online send path builds
the payload without an id, the spool drain passes a whole Message whose id
survives pruneUndefined). -/
structure RemoteDoc where
  docId : String
  idField : Option String
  data : MessageData
deriving DecidableEq, Repr

/-- Client-side messaging state plus the modelled backend: the in-memory
per-conversation map, the offline-mode flag, the persisted spool cell, the
remote messages collection, and the queue of outcomes the backend returns
for successive createMessage calls (an explicit oracle so failing sends
are expressible). -/
structure Sys where
  messagesByConversation : List (String × List Message)
  isOfflineMode : Bool
  spoolCell : SpoolCell
  remoteDocs : List RemoteDoc
  responses : List (Except String String)
deriving Repr

/-- DatabaseService.create: addDoc of pruneUndefined(data) with createdAt
and updatedAt replaced by serverTimestamp().  pruneUndefined drops only
undefined fields, so a caller-supplied id field is kept in the stored
data. -/
def createMessageDoc (idField : Option String) (d : MessageData) (t : Int)
    (docId : String) : RemoteDoc :=
  { docId := docId, idField := idField,
    data := { d with createdAt := .server t, updatedAt := .server t } }

/-- messageService.createMessage: consumes the next backend outcome; on
success the document is appended to the collection and the new document id
returned, on failure the error is thrown. -/
def createMessageCall (s : Sys) (idField : Option String) (d : MessageData) (t : Int) :
    Except String String × Sys :=
  match s.responses with
  | [] => (Except.error "backend-unavailable", s)
  | Except.error e :: rest => (Except.error e, { s with responses := rest })
  | Except.ok docId :: rest =>
      (Except.ok docId,
        { s with responses := rest,
                 remoteDocs := s.remoteDocs ++ [createMessageDoc idField d t docId] })

/-- Query/subscription mapping of one document, from
DatabaseService.query and subscribeToCollection:
  data = docs.map(doc => (id: doc.id, spread doc.data())).
The document id comes first and is therefore overridden by a stored id
field when the data has one. -/
def readDoc (d : RemoteDoc) : Message :=
  { id := d.idField.getD d.docId, data := d.data }

/-- MessageService.getMessages: query the collection filtered by
conversationId with a result limit (no orderBy), then sort ascending
client-side by resolved creation timestamp. -/
def getMessages (docs : List RemoteDoc) (cid : String) (limitCount : Nat) : List Message :=
  sortByTs (((docs.filter (fun d => d.data.conversationId == cid)).take limitCount).map readDoc)

/-- Optional arguments of sendMessage. -/
structure SendOptions where
  offline : Option Bool
  mtype : Option String
  attachments : Option (List Attachment)
deriving DecidableEq, Repr

/-- The base message record built at the top of sendMessage.  nowIso is the
epoch value of the new Date().toISOString() strings. -/
def mkBase (senderId receiverId content : String) (opts : SendOptions) (offline : Bool)
    (cid : String) (nowIso : Int) : MessageData :=
  { senderId := senderId, receiverId := receiverId, content := content,
    mtype := opts.mtype.getD "text",
    attachments := opts.attachments.getD [],
    isRead := false,
    isDelivered := !offline,
    deliveredAt := if offline then none else some nowIso,
    isEdited := false,
    status := if offline then "sent" else "delivered",
    conversationId := cid,
    createdAt := .iso nowIso,
    updatedAt := .iso nowIso }

/-- sendMessage.  The effective offline flag is options.offline ?? the
hook's isOfflineMode state.  Offline: append a locally identified copy to
the in-memory map, then read the persisted spool (this JSON.parse is NOT
inside any try/catch: a corrupt record rejects the call after the
in-memory append) and append a second locally identified copy to it.
Online: submit to the remote collection; a backend error rejects the call
before any local mutation; on success merge the saved record into the
in-memory map via a Map keyed by id.  The subsequent best-effort
updateLastMessage write targets the conversations collection, is wrapped
in try/catch in the source and touches none of the state modelled here,
so it is not represented.  nowId1 and nowId2 are the two separate
Date.now() calls producing the local identifiers; t is the server
timestamp of the remote write. -/
def sendMessage (s : Sys) (cid senderId receiverId content : String) (opts : SendOptions)
    (nowIso nowId1 nowId2 t : Int) : Except String Unit × Sys :=
  let offline := opts.offline.getD s.isOfflineMode
  let base := mkBase senderId receiverId content opts offline cid nowIso
  if offline then
    let localMsg : Message := { id := "local-" ++ toString nowId1, data := base }
    let mem := recSet s.messagesByConversation cid
      (recGet s.messagesByConversation cid ++ [localMsg])
    let s1 := { s with messagesByConversation := mem }
    match s.spoolCell with
    | SpoolCell.corrupt => (Except.error "spool-parse-failure", s1)
    | SpoolCell.absent =>
        let localMsg2 : Message := { id := "local-" ++ toString nowId2, data := base }
        (Except.ok (), { s1 with spoolCell := .valid (recSet [] cid [localMsg2]) })
    | SpoolCell.valid sp =>
        let localMsg2 : Message := { id := "local-" ++ toString nowId2, data := base }
        (Except.ok (),
          { s1 with spoolCell := .valid (recSet sp cid (recGet sp cid ++ [localMsg2])) })
  else
    match createMessageCall s none base t with
    | (Except.error e, s1) => (Except.error e, s1)
    | (Except.ok id, s1) =>
        let saved : Message := { id := id, data := base }
        let merged := dedupById (recGet s1.messagesByConversation cid ++ [saved])
        (Except.ok (),
          { s1 with messagesByConversation := recSet s1.messagesByConversation cid merged })

/-- Inner loop of syncOfflineMessages over one conversation's pending
list: submit each message in order (the whole parsed Message, id
included), overwriting its id in the parsed copy with the returned
document id; a thrown error aborts the iteration.  Returns the updated
system, the parsed copy after the mutations, and whether the loop ran to
completion. -/
def drainMsgs (s : Sys) (msgs : List Message) (t : Int) : Sys × List Message × Bool :=
  match msgs with
  | [] => (s, [], true)
  | m :: rest =>
    match createMessageCall s (some m.id) m.data t with
    | (Except.error _, s1) => (s1, m :: rest, false)
    | (Except.ok docId, s1) =>
        let out := drainMsgs s1 rest t
        (out.1, { m with id := docId } :: out.2.1, out.2.2)

/-- Outer loop of syncOfflineMessages over Object.entries(spool). -/
def drainSpool (s : Sys) (sp : List (String × List Message)) (t : Int) :
    Sys × List (String × List Message) × Bool :=
  match sp with
  | [] => (s, [], true)
  | (cid, msgs) :: rest =>
    let inner := drainMsgs s msgs t
    if inner.2.2 then
      let outer := drainSpool inner.1 rest t
      (outer.1, (cid, inner.2.1) :: outer.2.1, outer.2.2)
    else (inner.1, (cid, inner.2.1) :: rest, false)

/-- syncOfflineMessages: read and parse the spool, submit every pending
message, then remove the persisted record — all inside one try/catch, so a
parse failure or a failed submission skips the removal and is swallowed. -/
def syncOfflineMessages (s : Sys) (t : Int) : Sys :=
  match s.spoolCell with
  | SpoolCell.corrupt => s
  | SpoolCell.absent => { s with spoolCell := .absent }
  | SpoolCell.valid sp =>
      let out := drainSpool s sp t
      if out.2.2 then { out.1 with spoolCell := .absent } else out.1

/-- Spread of two records, second overriding the first:
  { spread a, spread b }. -/
def recMergeAll (a b : List (String × List Message)) : List (String × List Message) :=
  b.foldl (fun acc p => recSet acc p.1 p.2) (a.foldl (fun acc p => recSet acc p.1 p.2) [])

/-- The startup effect of MessagesProvider: load the persisted spool and
merge it under the current in-memory map (spread spool then spread prev,
prev winning).  The read is inside try/catch with an empty handler, so an
absent or corrupt record leaves the state unchanged. -/
def startupLoad (s : Sys) : Sys :=
  match s.spoolCell with
  | SpoolCell.corrupt => s
  | SpoolCell.absent => s
  | SpoolCell.valid sp =>
      { s with messagesByConversation := recMergeAll sp s.messagesByConversation }

/-- loadMessages (success path): fetch up to 50 messages of the
conversation, deduplicate by id, and store the list.  The failure path
only sets an error flag and performs no write. -/
def loadMessages (s : Sys) (cid : String) : Sys :=
  { s with messagesByConversation :=
      recSet s.messagesByConversation cid (dedupById (getMessages s.remoteDocs cid 50)) }

/-- The snapshot callback of subscribeToConversation: sort the snapshot by
resolved creation timestamp, deduplicate by id (later entries winning) and
republish the list for the conversation. -/
def applySnapshot (s : Sys) (cid : String) (snapshot : List Message) : Sys :=
  { s with messagesByConversation :=
      recSet s.messagesByConversation cid (dedupById (sortByTs snapshot)) }

/-- All pending messages of a parsed spool in drain order. -/
def allMsgs (sp : List (String × List Message)) : List Message :=
  (sp.map Prod.snd).flatten

/-! ### Conversation list aggregator (src/app/(tabs)/messages.tsx)

Strings model the truthiness-based fallbacks of the source: the empty
string stands for a missing or falsy value, mirroring the || chains. -/

def DEFAULT_AVATAR : String :=
  "https://images.unsplash.com/photo-1535713875002-d1d0cf377fde?w=150&h=150&fit=crop&crop=face"

/-- JS a || b on string-or-missing values. -/
def jsOr (a b : String) : String := if a = "" then b else a

/-- The user document fields read by the profile resolver. -/
structure UserDoc where
  name : String
  username : String
  avatar : String
deriving DecidableEq, Repr

/-- A cached display profile for a direct conversation. -/
structure Profile where
  name : String
  avatar : String
deriving DecidableEq, Repr

/-- The conversation fields the aggregator reads. -/
structure Conversation where
  id : String
  isGroup : Bool
  groupName : String
  groupAvatar : String
  participants : List String
deriving DecidableEq, Repr

/-- The conversations the resolution effect will look up: direct (non
group) conversations with no cached profile yet. -/
def toFetchList (dmProfiles : List (String × Profile)) (convos : List Conversation) :
    List Conversation :=
  (convos.filter (fun c => !c.isGroup)).filter (fun c => (recFind? dmProfiles c.id).isNone)

/-- Display profile built from a fetched user document:
  name || username || "Unknown", avatar as stored. -/
def resolveProfile (u : UserDoc) : Profile :=
  { name := jsOr u.name (jsOr u.username "Unknown"), avatar := u.avatar }

/-- The updates record built by the resolution effect.  Each conversation
to fetch is processed inside its own try/catch: a lookup failure (error)
or an absent user document just skips that conversation and the loop
continues with the others. -/
def resolveProfileUpdates (userId : String) (dmProfiles : List (String × Profile))
    (convos : List Conversation) (lookup : String → Except String (Option UserDoc)) :
    List (String × Profile) :=
  (toFetchList dmProfiles convos).foldl
    (fun updates c =>
      match c.participants.find? (fun p => p != userId) with
      | none => updates
      | some other =>
        match lookup other with
        | Except.error _ => updates
        | Except.ok none => updates
        | Except.ok (some u) => recSet updates c.id (resolveProfile u))
    []

/-- setDmProfiles(prev => (spread prev, spread updates)). -/
def applyProfileUpdates (dmProfiles updates : List (String × Profile)) :
    List (String × Profile) :=
  updates.foldl (fun acc p => recSet acc p.1 p.2) dmProfiles

/-- Display name of one chat preview row. -/
def chatName (dmProfiles : List (String × Profile)) (c : Conversation) : String :=
  if c.isGroup then jsOr c.groupName "Group Chat"
  else
    match recFind? dmProfiles c.id with
    | some p => jsOr p.name "Direct Message"
    | none => "Direct Message"

/-- Display avatar of one chat preview row. -/
def chatAvatar (dmProfiles : List (String × Profile)) (c : Conversation) : String :=
  if c.isGroup then jsOr c.groupAvatar DEFAULT_AVATAR
  else
    match recFind? dmProfiles c.id with
    | some p => jsOr p.avatar DEFAULT_AVATAR
    | none => DEFAULT_AVATAR

/-! ### Send sequences

A queued sendMessage invocation, used to state properties of arbitrary
sequences of sends. -/

structure SendReq where
  cid : String
  senderId : String
  receiverId : String
  content : String
  opts : SendOptions
  nowIso : Int
  nowId1 : Int
  nowId2 : Int
deriving DecidableEq, Repr

/-- Run a sequence of sendMessage calls, threading the state. -/
def runSends (s : Sys) (t : Int) : List SendReq → Sys
  | [] => s
  | q :: qs =>
      runSends (sendMessage s q.cid q.senderId q.receiverId q.content q.opts
        q.nowIso q.nowId1 q.nowId2 t).2 t qs

/-! ### Concrete fixtures used by the examples and counterexamples -/

/-- A message with the given identifier, conversation and timestamp. -/
def mkMsg (i cid : String) (ts : TsVal) : Message :=
  { id := i,
    data := { senderId := "alice", receiverId := "bob", content := "hi",
              mtype := "text", attachments := [], isRead := false,
              isDelivered := false, deliveredAt := none, isEdited := false,
              status := "sent", conversationId := cid,
              createdAt := ts, updatedAt := ts } }

def msgA : Message := mkMsg "A" "c1" (.server 100)
def msgB : Message := mkMsg "B" "c1" (.server 200)
def msgC : Message := mkMsg "C" "c1" (.iso 300)

/-- Spooled messages for the partial-drain scenario. -/
def msgC1a : Message := mkMsg "local-1" "c1" (.iso 10)
def msgC1b : Message := mkMsg "local-2" "c1" (.iso 20)

/-- Two spooled messages; the backend accepts the first write and rejects
the second. -/
def sysC1 : Sys :=
  { messagesByConversation := [], isOfflineMode := false,
    spoolCell := SpoolCell.valid [("c1", [msgC1a, msgC1b])],
    remoteDocs := [],
    responses := [Except.ok "srv1", Except.error "network"] }

/-- Same spool with one message and a backend that accepts the write. -/
def sysC1ok : Sys :=
  { messagesByConversation := [], isOfflineMode := false,
    spoolCell := SpoolCell.valid [("c1", [msgC1a])],
    remoteDocs := [],
    responses := [Except.ok "srv1"] }

/-- Fresh offline-mode state with an empty store and a backend that will
accept one write. -/
def sysC3start : Sys :=
  { messagesByConversation := [], isOfflineMode := true,
    spoolCell := SpoolCell.absent, remoteDocs := [],
    responses := [Except.ok "srv1"] }

def noOpts : SendOptions := { offline := none, mtype := none, attachments := none }

/-- State after sending one message offline to c1. -/
def sysC3afterSend : Sys :=
  (sendMessage sysC3start "c1" "alice" "bob" "hi" noOpts 100 100 100 0).2

/-- State after the subsequent drain (all sends accepted). -/
def sysC3final : Sys := syncOfflineMessages sysC3afterSend 500

/-- A conversation already holding a message with a late timestamp. -/
def msgLate : Message := mkMsg "m1" "c1" (.iso 1000)

def sysC5 : Sys :=
  { messagesByConversation := [("c1", [msgLate])], isOfflineMode := true,
    spoolCell := SpoolCell.absent, remoteDocs := [], responses := [] }

/-- One spooled message with a local identifier; the backend accepts the
write. -/
def sysC8 : Sys :=
  { messagesByConversation := [], isOfflineMode := false,
    spoolCell := SpoolCell.valid [("c1", [mkMsg "local-7" "c1" (.iso 100)])],
    remoteDocs := [],
    responses := [Except.ok "srv1"] }

/-- Offline-mode state whose persisted spool record fails to parse. -/
def sysC9 : Sys :=
  { messagesByConversation := [], isOfflineMode := true,
    spoolCell := SpoolCell.corrupt, remoteDocs := [], responses := [] }

/-- Direct conversations for the aggregator scenario: d1's peer lookup
fails, d2's succeeds, d3 already has a cached profile. -/
def convD1 : Conversation :=
  { id := "d1", isGroup := false, groupName := "", groupAvatar := "",
    participants := ["me", "p1"] }

def convD2 : Conversation :=
  { id := "d2", isGroup := false, groupName := "", groupAvatar := "",
    participants := ["me", "p2"] }

def convD3 : Conversation :=
  { id := "d3", isGroup := false, groupName := "", groupAvatar := "",
    participants := ["me", "p3"] }

def profilesC10 : List (String × Profile) :=
  [("d3", { name := "Carol", avatar := "" })]

/-- Profile lookup oracle: fails for p1, succeeds for p2, finds no user
document otherwise. -/
def lookupC10 : String → Except String (Option UserDoc) :=
  fun uid =>
    if uid = "p1" then Except.error "network"
    else if uid = "p2" then
      Except.ok (some { name := "Bob", username := "bobby", avatar := "http-b" })
    else Except.ok none

/-! ### Sorting, record and deduplication lemmas -/

theorem sortByTs_sorted (l : List Message) : (sortByTs l).Sorted tsLe :=
  List.sorted_insertionSort tsLe l

theorem sortByTs_perm (l : List Message) : (sortByTs l).Perm l :=
  List.perm_insertionSort tsLe l

/-! ### Record lemmas -/

theorem recFind?_recSet_self {α : Type} (r : List (String × α)) (k : String) (v : α) :
    recFind? (recSet r k v) k = some v := by
  induction r with
  | nil => simp [recSet, recFind?]
  | cons p r ih =>
    by_cases hp : p.1 = k
    · simp [recSet, recFind?, hp]
    · simpa [recSet, recFind?, hp] using ih

theorem recFind?_recSet_ne {α : Type} (r : List (String × α)) (k k' : String) (v : α)
    (hne : k' ≠ k) : recFind? (recSet r k v) k' = recFind? r k' := by
  have hkk : ¬ (k = k') := fun h => hne h.symm
  induction r with
  | nil => simp [recSet, recFind?, hkk]
  | cons p r ih =>
    by_cases hp : p.1 = k
    · simp [recSet, recFind?, hp, hkk]
    · by_cases hq : p.1 = k'
      · simp [recSet, recFind?, hp, hq, hne]
      · simpa [recSet, recFind?, hp, hq] using ih

theorem recSet_keys {α : Type} (r : List (String × α)) (k : String) (v : α) :
    (recSet r k v).map Prod.fst =
      if k ∈ r.map Prod.fst then r.map Prod.fst else r.map Prod.fst ++ [k] := by
  induction r with
  | nil => simp [recSet]
  | cons p r ih =>
    by_cases hp : p.1 = k
    · simp [recSet, hp]
    · have hp' : ¬ (k = p.1) := fun h => hp h.symm
      simp only [recSet, if_neg hp, List.map_cons, List.mem_cons]
      rw [ih]
      by_cases hr : k ∈ r.map Prod.fst
      · simp [hr, hp']
      · simp [hr, hp']

theorem recSet_keys_nodup {α : Type} (r : List (String × α)) (k : String) (v : α)
    (h : (r.map Prod.fst).Nodup) : ((recSet r k v).map Prod.fst).Nodup := by
  rw [recSet_keys]
  by_cases hr : k ∈ r.map Prod.fst
  · simpa [hr]
  · simp only [hr, if_false]
    rw [List.nodup_append]
    exact ⟨h, List.nodup_singleton k, by
      intro a ha hb
      simp only [List.mem_singleton] at hb
      subst hb
      exact hr ha⟩

theorem mem_recSet {α : Type} (r : List (String × α)) (k : String) (v : α) (q : String × α)
    (hq : q ∈ recSet r k v) : q = (k, v) ∨ q ∈ r := by
  induction r with
  | nil => simpa [recSet] using hq
  | cons p r ih =>
    by_cases hp : p.1 = k
    · simp only [recSet, if_pos hp, List.mem_cons] at hq
      rcases hq with h | h
      · exact Or.inl h
      · exact Or.inr (List.mem_cons_of_mem p h)
    · simp only [recSet, if_neg hp, List.mem_cons] at hq
      rcases hq with h | h
      · exact Or.inr (h ▸ List.mem_cons_self p r)
      · rcases ih h with h' | h'
        · exact Or.inl h'
        · exact Or.inr (List.mem_cons_of_mem p h')

theorem recSet_of_not_mem {α : Type} (r : List (String × α)) (k : String) (v : α)
    (h : k ∉ r.map Prod.fst) : recSet r k v = r ++ [(k, v)] := by
  induction r with
  | nil => simp [recSet]
  | cons p r ih =>
    simp only [List.map_cons, List.mem_cons] at h
    push_neg at h
    have h1 : ¬ (p.1 = k) := fun hp => h.1 hp.symm
    simp only [recSet, if_neg h1, List.cons_append]
    rw [ih h.2]

/-! ### Deduplication lemmas -/

theorem foldl_recSet_entry_id (msgs : List Message) (acc : List (String × Message))
    (hacc : ∀ p ∈ acc, p.2.id = p.1) :
    ∀ p ∈ msgs.foldl (fun a m => recSet a m.id m) acc, p.2.id = p.1 := by
  induction msgs generalizing acc with
  | nil => exact hacc
  | cons m ms ih =>
    intro p hp
    refine ih _ (fun q hq => ?_) p hp
    rcases mem_recSet _ _ _ _ hq with h | h
    · subst h; rfl
    · exact hacc q h

theorem foldl_recSet_keys_nodup (msgs : List Message) (acc : List (String × Message))
    (hacc : (acc.map Prod.fst).Nodup) :
    (((msgs.foldl (fun a m => recSet a m.id m) acc)).map Prod.fst).Nodup := by
  induction msgs generalizing acc with
  | nil => exact hacc
  | cons m ms ih => exact ih _ (recSet_keys_nodup _ _ _ hacc)

/-- After deduplication no two entries share an identifier. -/
theorem dedupById_id_nodup (msgs : List Message) :
    ((dedupById msgs).map Message.id).Nodup := by
  have hkeys := foldl_recSet_keys_nodup msgs [] (by simp)
  have hids := foldl_recSet_entry_id msgs [] (by simp)
  unfold dedupById dedupPairs
  rw [List.map_map]
  have : (dedupPairs msgs).map (Message.id ∘ Prod.snd) = (dedupPairs msgs).map Prod.fst :=
    List.map_congr_left (fun p hp => hids p hp)
  rw [dedupPairs] at this
  rw [this]
  exact hkeys

theorem foldl_recSet_of_disjoint (msgs : List Message) (acc : List (String × Message))
    (hd : ∀ m ∈ msgs, m.id ∉ acc.map Prod.fst) (hn : (msgs.map Message.id).Nodup) :
    msgs.foldl (fun a m => recSet a m.id m) acc = acc ++ msgs.map (fun m => (m.id, m)) := by
  induction msgs generalizing acc with
  | nil => simp
  | cons m ms ih =>
    simp only [List.foldl_cons]
    rw [recSet_of_not_mem _ _ _ (hd m (List.mem_cons_self m ms))]
    rw [ih (acc ++ [(m.id, m)]) ?_ (by simpa using hn.of_cons)]
    · simp
    · intro x hx
      simp only [List.map_append, List.mem_append, List.map_cons, List.map_nil,
        List.mem_singleton, not_or]
      refine ⟨hd x (List.mem_cons_of_mem m hx), ?_⟩
      simp only [List.map_cons, List.nodup_cons, List.mem_map] at hn
      exact fun hxm => hn.1 ⟨x, hx, hxm⟩

/-- When the input already has pairwise-distinct identifiers (as a
backend snapshot does: each document appears once), deduplication is the
identity. -/
theorem dedupById_of_nodup (msgs : List Message) (hn : (msgs.map Message.id).Nodup) :
    dedupById msgs = msgs := by
  unfold dedupById dedupPairs
  rw [foldl_recSet_of_disjoint msgs [] (by simp) hn]
  simp only [List.nil_append]
  rw [List.map_map]
  exact (List.map_congr_left fun m _ => rfl).trans (List.map_id msgs)

/-- A sorted snapshot with distinct identifiers stays sorted through
deduplication. -/
theorem dedupById_sorted (msgs : List Message) (hn : (msgs.map Message.id).Nodup)
    (hs : msgs.Sorted tsLe) : (dedupById msgs).Sorted tsLe := by
  rw [dedupById_of_nodup msgs hn]; exact hs

/-! ### Frame lemmas: what createMessage and the drain leave untouched -/

theorem createMessageCall_frame (s : Sys) (idf : Option String) (d : MessageData) (t : Int) :
    (createMessageCall s idf d t).2.messagesByConversation = s.messagesByConversation ∧
    (createMessageCall s idf d t).2.spoolCell = s.spoolCell ∧
    (createMessageCall s idf d t).2.isOfflineMode = s.isOfflineMode := by
  unfold createMessageCall
  cases hr : s.responses with
  | nil => simp
  | cons r rest => cases r <;> simp

theorem drainMsgs_frame (msgs : List Message) (s : Sys) (t : Int) :
    (drainMsgs s msgs t).1.messagesByConversation = s.messagesByConversation ∧
    (drainMsgs s msgs t).1.spoolCell = s.spoolCell ∧
    (drainMsgs s msgs t).1.isOfflineMode = s.isOfflineMode := by
  induction msgs generalizing s with
  | nil => simp [drainMsgs]
  | cons m rest ih =>
    unfold drainMsgs
    rcases hc : createMessageCall s (some m.id) m.data t with ⟨r, s1⟩
    have hf := createMessageCall_frame s (some m.id) m.data t
    rw [hc] at hf
    cases r with
    | error e => simpa using hf
    | ok docId =>
      obtain ⟨h1, h2, h3⟩ := ih s1
      exact ⟨h1.trans hf.1, h2.trans hf.2.1, h3.trans hf.2.2⟩

theorem drainSpool_frame (sp : List (String × List Message)) (s : Sys) (t : Int) :
    (drainSpool s sp t).1.messagesByConversation = s.messagesByConversation ∧
    (drainSpool s sp t).1.spoolCell = s.spoolCell ∧
    (drainSpool s sp t).1.isOfflineMode = s.isOfflineMode := by
  induction sp generalizing s with
  | nil => simp [drainSpool]
  | cons p rest ih =>
    obtain ⟨cid, msgs⟩ := p
    unfold drainSpool
    have hf := drainMsgs_frame msgs s t
    by_cases hok : (drainMsgs s msgs t).2.2
    · simp only [hok, if_true]
      obtain ⟨h1, h2, h3⟩ := ih (drainMsgs s msgs t).1
      exact ⟨h1.trans hf.1, h2.trans hf.2.1, h3.trans hf.2.2⟩
    · simp only [Bool.not_eq_true] at hok
      simpa [hok] using hf

/-! ### Drain lemmas: the all-success and first-failure runs -/

theorem drainMsgs_ok (t : Int) (msgs : List Message) (oks : List String)
    (s : Sys) (rest : List (Except String String))
    (hresp : s.responses = oks.map Except.ok ++ rest)
    (hlen : oks.length = msgs.length) :
    drainMsgs s msgs t =
      ({ s with responses := rest,
                remoteDocs := s.remoteDocs ++
                  List.zipWith (fun m d => createMessageDoc (some m.id) m.data t d) msgs oks },
       List.zipWith (fun m d => { m with id := d }) msgs oks,
       true) := by
  induction msgs generalizing s oks with
  | nil =>
    cases oks with
    | nil => simp only [List.map_nil, List.nil_append] at hresp; simp [drainMsgs, hresp.symm]
    | cons _ _ => simp at hlen
  | cons m ms ih =>
    cases oks with
    | nil => simp at hlen
    | cons o os =>
      simp only [List.map_cons, List.cons_append] at hresp
      have hcall : createMessageCall s (some m.id) m.data t =
          (Except.ok o,
           { s with responses := os.map Except.ok ++ rest,
                    remoteDocs := s.remoteDocs ++ [createMessageDoc (some m.id) m.data t o] }) := by
        unfold createMessageCall
        rw [hresp]
      have hih := ih os
        { s with responses := os.map Except.ok ++ rest,
                 remoteDocs := s.remoteDocs ++ [createMessageDoc (some m.id) m.data t o] }
        rfl (by simpa using hlen)
      unfold drainMsgs
      rw [hcall]
      simp only [hih]
      simp [List.append_assoc]

theorem drainMsgs_fail (t : Int) (msgs : List Message) (oks : List String) (e : String)
    (s : Sys) (rest : List (Except String String))
    (hresp : s.responses = oks.map Except.ok ++ Except.error e :: rest)
    (hlen : oks.length < msgs.length) :
    (drainMsgs s msgs t).1 =
      { s with responses := rest,
               remoteDocs := s.remoteDocs ++
                 List.zipWith (fun m d => createMessageDoc (some m.id) m.data t d)
                   (msgs.take oks.length) oks } ∧
    (drainMsgs s msgs t).2.2 = false := by
  induction msgs generalizing s oks with
  | nil => simp at hlen
  | cons m ms ih =>
    cases oks with
    | nil =>
      simp only [List.map_nil, List.nil_append] at hresp
      have hcall : createMessageCall s (some m.id) m.data t =
          (Except.error e, { s with responses := rest }) := by
        unfold createMessageCall
        rw [hresp]
      unfold drainMsgs
      rw [hcall]
      simp
    | cons o os =>
      simp only [List.map_cons, List.cons_append] at hresp
      have hcall : createMessageCall s (some m.id) m.data t =
          (Except.ok o,
           { s with responses := os.map Except.ok ++ Except.error e :: rest,
                    remoteDocs := s.remoteDocs ++ [createMessageDoc (some m.id) m.data t o] }) := by
        unfold createMessageCall
        rw [hresp]
      obtain ⟨h1, h2⟩ := ih os
        { s with responses := os.map Except.ok ++ Except.error e :: rest,
                 remoteDocs := s.remoteDocs ++ [createMessageDoc (some m.id) m.data t o] }
        rfl (by simpa using Nat.lt_of_succ_lt_succ (by simpa using hlen))
      unfold drainMsgs
      rw [hcall]
      refine ⟨?_, by simpa using h2⟩
      simp only []
      rw [h1]
      simp [List.append_assoc]

theorem drainSpool_ok (t : Int) (sp : List (String × List Message)) (oks : List String)
    (s : Sys) (rest : List (Except String String))
    (hresp : s.responses = oks.map Except.ok ++ rest)
    (hlen : oks.length = (allMsgs sp).length) :
    (drainSpool s sp t).1 =
      { s with responses := rest,
               remoteDocs := s.remoteDocs ++
                 List.zipWith (fun m d => createMessageDoc (some m.id) m.data t d)
                   (allMsgs sp) oks } ∧
    (drainSpool s sp t).2.2 = true := by
  induction sp generalizing s oks with
  | nil =>
    simp only [allMsgs, List.map_nil, List.flatten_nil, List.length_nil] at hlen
    rw [List.length_eq_zero] at hlen
    subst hlen
    simp only [List.map_nil, List.nil_append] at hresp
    simp [drainSpool, allMsgs, hresp.symm]
  | cons p sp ih =>
    obtain ⟨cid, msgs⟩ := p
    have hall : allMsgs ((cid, msgs) :: sp) = msgs ++ allMsgs sp := by
      simp [allMsgs]
    rw [hall] at hlen
    simp only [List.length_append] at hlen
    have hlen1 : (oks.take msgs.length).length = msgs.length := by
      rw [List.length_take]; omega
    have hresp1 : s.responses =
        (oks.take msgs.length).map Except.ok ++
          ((oks.drop msgs.length).map Except.ok ++ rest) := by
      rw [← List.append_assoc, ← List.map_append, List.take_append_drop]
      exact hresp
    have h1 := drainMsgs_ok t msgs (oks.take msgs.length) s _ hresp1 hlen1
    obtain ⟨h2, h3⟩ := ih (oks.drop msgs.length)
      { s with responses := (oks.drop msgs.length).map Except.ok ++ rest,
               remoteDocs := s.remoteDocs ++
                 List.zipWith (fun m d => createMessageDoc (some m.id) m.data t d)
                   msgs (oks.take msgs.length) }
      rfl (by rw [List.length_drop]; omega)
    unfold drainSpool
    rw [h1]
    simp only [if_true]
    refine ⟨?_, by simpa using h3⟩
    rw [h2]
    simp only [hall, List.append_assoc]
    rw [← List.zipWith_append _ _ _ _ _ hlen1.symm]
    rw [List.take_append_drop]

theorem drainSpool_fail (t : Int) (sp : List (String × List Message)) (oks : List String)
    (e : String) (s : Sys) (rest : List (Except String String))
    (hresp : s.responses = oks.map Except.ok ++ Except.error e :: rest)
    (hlen : oks.length < (allMsgs sp).length) :
    (drainSpool s sp t).1 =
      { s with responses := rest,
               remoteDocs := s.remoteDocs ++
                 List.zipWith (fun m d => createMessageDoc (some m.id) m.data t d)
                   ((allMsgs sp).take oks.length) oks } ∧
    (drainSpool s sp t).2.2 = false := by
  induction sp generalizing s oks with
  | nil => simp [allMsgs] at hlen
  | cons p sp ih =>
    obtain ⟨cid, msgs⟩ := p
    have hall : allMsgs ((cid, msgs) :: sp) = msgs ++ allMsgs sp := by
      simp [allMsgs]
    rw [hall] at hlen
    simp only [List.length_append] at hlen
    by_cases hc : oks.length < msgs.length
    · obtain ⟨h1, h2⟩ := drainMsgs_fail t msgs oks e s rest hresp hc
      unfold drainSpool
      simp only [h2, Bool.false_eq_true, if_false]
      refine ⟨?_, trivial⟩
      rw [h1, hall, List.take_append_of_le_length (Nat.le_of_lt hc)]
    · push_neg at hc
      have hlen1 : (oks.take msgs.length).length = msgs.length := by
        rw [List.length_take]; omega
      have hresp1 : s.responses =
          (oks.take msgs.length).map Except.ok ++
            ((oks.drop msgs.length).map Except.ok ++ Except.error e :: rest) := by
        rw [← List.append_assoc, ← List.map_append, List.take_append_drop]
        exact hresp
      have h1 := drainMsgs_ok t msgs (oks.take msgs.length) s _ hresp1 hlen1
      obtain ⟨h2, h3⟩ := ih (oks.drop msgs.length)
        { s with responses := (oks.drop msgs.length).map Except.ok ++ Except.error e :: rest,
                 remoteDocs := s.remoteDocs ++
                   List.zipWith (fun m d => createMessageDoc (some m.id) m.data t d)
                     msgs (oks.take msgs.length) }
        rfl (by rw [List.length_drop]; omega)
      unfold drainSpool
      rw [h1]
      simp only [if_true]
      refine ⟨?_, by simpa using h3⟩
      rw [h2]
      simp only [hall, List.append_assoc]
      rw [← List.zipWith_append _ _ _ _ _ hlen1.symm]
      congr 3
      · rw [List.take_append_eq_append_take, List.take_of_length_le hc]
        congr 2
        rw [List.length_drop]
      · exact List.take_append_drop _ _


/-! ### Small derived lemmas -/

theorem recGet_recSet_self (r : List (String × List Message)) (k : String)
    (v : List Message) : recGet (recSet r k v) k = v := by
  simp [recGet, recFind?_recSet_self]

theorem recGet_recSet_ne (r : List (String × List Message)) (k k' : String)
    (v : List Message) (hne : k' ≠ k) : recGet (recSet r k v) k' = recGet r k' := by
  simp [recGet, recFind?_recSet_ne r k k' v hne]

theorem zipWith_ignore_snd {α β γ : Type} (g : α → γ) :
    ∀ (l1 : List α) (l2 : List β), l1.length = l2.length →
      List.zipWith (fun a _ => g a) l1 l2 = l1.map g := by
  intro l1
  induction l1 with
  | nil => intro l2 _; simp
  | cons a l ih =>
    intro l2 hlen
    cases l2 with
    | nil => simp at hlen
    | cons b l2 => simp [ih l2 (by simpa using hlen)]

/-! ### Claim theorems -/

/-- C7: syncOfflineMessages never modifies the in-memory
messagesByConversation state (nor the offline-mode flag): whatever the
spool contents and however the backend answers, after a drain every
conversation's in-memory list is exactly what it was before the call;
only the persisted spool record, the remote collection and the response
queue can change. -/
theorem C7_sync_preserves_memory (s : Sys) (t : Int) :
    (syncOfflineMessages s t).messagesByConversation = s.messagesByConversation ∧
    (syncOfflineMessages s t).isOfflineMode = s.isOfflineMode := by
  unfold syncOfflineMessages
  cases h : s.spoolCell with
  | corrupt => simp
  | absent => simp
  | valid sp =>
    have hf := drainSpool_frame sp s t
    by_cases hok : (drainSpool s sp t).2.2 <;> simp [hok, hf.1, hf.2.2]

/-- C4: for every snapshot delivered to a conversation subscription, the
republished list for that conversation is the snapshot sorted ascending
by resolved creation timestamp and then deduplicated by identifier with
later entries winning; the result never holds two entries with one
identifier; and for the concrete successive snapshots [A,B] then
[A,B,C] (A,B unchanged) the republished list is [A,B,C] with no
duplicate of A or B. -/
theorem C4_snapshot_republish (s : Sys) (cid : String) (snapshot : List Message) :
    recGet (applySnapshot s cid snapshot).messagesByConversation cid =
      dedupById (sortByTs snapshot) ∧
    (sortByTs snapshot).Sorted tsLe ∧
    ((recGet (applySnapshot s cid snapshot).messagesByConversation cid).map
       Message.id).Nodup ∧
    recGet ((applySnapshot (applySnapshot s cid [msgA, msgB]) cid
        [msgA, msgB, msgC]).messagesByConversation) cid = [msgA, msgB, msgC] := by
  refine ⟨?_, sortByTs_sorted snapshot, ?_, ?_⟩
  · unfold applySnapshot
    exact recGet_recSet_self _ _ _
  · unfold applySnapshot
    rw [recGet_recSet_self]
    exact dedupById_id_nodup _
  · unfold applySnapshot
    rw [recGet_recSet_self]
    decide


theorem map_readDoc_zipWith (t : Int) :
    ∀ (msgs : List Message) (oks : List String), msgs.length = oks.length →
      (List.zipWith (fun m d => createMessageDoc (some m.id) m.data t d) msgs oks).map
          readDoc =
        msgs.map (fun m =>
          { m with data := { m.data with createdAt := TsVal.server t,
                                         updatedAt := TsVal.server t } }) := by
  intro msgs
  induction msgs with
  | nil => intro oks _; simp
  | cons m ms ih =>
    intro oks hlen
    cases oks with
    | nil => simp at hlen
    | cons o os =>
      simp only [List.zipWith_cons_cons, List.map_cons]
      rw [ih os (by simpa using hlen)]
      rfl

/-- C1 (counterexample): with two spooled messages for c1 and a backend
that accepts the first write and rejects the second, the drain clears
nothing: the persisted spool still holds both entries afterwards — it is
not cleared as the claim states — and only the first message reached the
remote collection. -/
theorem C1_counterexample :
    (syncOfflineMessages sysC1 500).spoolCell =
      SpoolCell.valid [("c1", [msgC1a, msgC1b])] ∧
    (syncOfflineMessages sysC1 500).spoolCell ≠ SpoolCell.absent ∧
    (syncOfflineMessages sysC1 500).remoteDocs.length = 1 := by
  exact ⟨by decide, by decide, by decide⟩

/-- C1 (amended): the drain submits pending messages in list order only up
to the first failure, and the unconditional-looking clear is in fact
conditional: removeItem sits inside the same try/catch after the loop, so
the persisted spool record is cleared when every submission succeeds, and
is left completely intact (no entries removed, the error swallowed) when
the Nth submission fails — at which point exactly the first N-1 messages
were written remotely. -/
theorem C1_spool_cleared_only_on_full_success
    (s : Sys) (sp : List (String × List Message)) (oks : List String)
    (rest : List (Except String String)) (t : Int)
    (hsp : s.spoolCell = SpoolCell.valid sp) :
    (s.responses = oks.map Except.ok ++ rest → oks.length = (allMsgs sp).length →
      (syncOfflineMessages s t).spoolCell = SpoolCell.absent ∧
      (syncOfflineMessages s t).remoteDocs =
        s.remoteDocs ++
          List.zipWith (fun m d => createMessageDoc (some m.id) m.data t d)
            (allMsgs sp) oks) ∧
    (∀ e, s.responses = oks.map Except.ok ++ Except.error e :: rest →
      oks.length < (allMsgs sp).length →
      (syncOfflineMessages s t).spoolCell = SpoolCell.valid sp ∧
      (syncOfflineMessages s t).remoteDocs =
        s.remoteDocs ++
          List.zipWith (fun m d => createMessageDoc (some m.id) m.data t d)
            ((allMsgs sp).take oks.length) oks) := by
  constructor
  · intro hresp hlen
    obtain ⟨h1, h2⟩ := drainSpool_ok t sp oks s rest hresp hlen
    unfold syncOfflineMessages
    rw [hsp]
    simp only [h2, if_true]
    refine ⟨trivial, ?_⟩
    rw [h1]
  · intro e hresp hlen
    obtain ⟨h1, h2⟩ := drainSpool_fail t sp oks e s rest hresp hlen
    have hf := drainSpool_frame sp s t
    unfold syncOfflineMessages
    rw [hsp]
    simp only [h2, Bool.false_eq_true, if_false]
    constructor
    · rw [hf.2.1, hsp]
    · rw [h1]

/-- Witness for C1: a fully successful drain of one spooled message
clears the persisted spool and appends exactly that message to the remote
collection. -/
theorem C1_witness :
    (syncOfflineMessages sysC1ok 500).spoolCell = SpoolCell.absent ∧
    (syncOfflineMessages sysC1ok 500).remoteDocs =
      sysC1ok.remoteDocs ++
        List.zipWith (fun m d => createMessageDoc (some m.id) m.data 500 d)
          (allMsgs [("c1", [msgC1a])]) ["srv1"] :=
  (C1_spool_cleared_only_on_full_success sysC1ok [("c1", [msgC1a])] ["srv1"] [] 500
    rfl).1 rfl rfl

/-- C3 (counterexample): sending one message offline to c1 and draining
with a backend that accepts all writes leaves the spool empty, but the
single message read back for c1 carries the local identifier ("local-100",
not the server-assigned "srv1" — the claim demands a non-local one) and
its isDelivered flag is false (the claim demands true). -/
theorem C3_counterexample :
    sysC3final.spoolCell = SpoolCell.absent ∧
    sysC3final.remoteDocs.map readDoc =
      [{ id := "local-100",
         data := { mkBase "alice" "bob" "hi" noOpts true "c1" 100 with
                   createdAt := TsVal.server 500, updatedAt := TsVal.server 500 } }] ∧
    ¬ (∃ m ∈ sysC3final.remoteDocs.map readDoc, m.data.isDelivered = true) := by
  exact ⟨by decide, by decide, by decide⟩

/-- C3 (amended): a drain in which every send succeeds leaves the
persisted spool empty, and the drain loop overwrites the identifiers in
its parsed copy with the server-assigned document ids; but the documents
created remotely keep the local identifier inside their data and keep the
spooled isDelivered value (false), so each drained message reads back
under its formerly-local identifier with isDelivered still false, not
under the server-assigned id with isDelivered true. -/
theorem C3_drain_success_outcome
    (s : Sys) (sp : List (String × List Message)) (oks : List String)
    (rest : List (Except String String)) (t : Int)
    (hsp : s.spoolCell = SpoolCell.valid sp)
    (hresp : s.responses = oks.map Except.ok ++ rest)
    (hlen : oks.length = (allMsgs sp).length) :
    (syncOfflineMessages s t).spoolCell = SpoolCell.absent ∧
    (syncOfflineMessages s t).remoteDocs.map readDoc =
      s.remoteDocs.map readDoc ++
        (allMsgs sp).map (fun m =>
          { m with data := { m.data with createdAt := TsVal.server t,
                                         updatedAt := TsVal.server t } }) := by
  obtain ⟨h1, h2⟩ := drainSpool_ok t sp oks s rest hresp hlen
  unfold syncOfflineMessages
  rw [hsp]
  simp only [h2, if_true]
  refine ⟨trivial, ?_⟩
  rw [h1]
  simp only [List.map_append]
  rw [map_readDoc_zipWith t (allMsgs sp) oks hlen.symm]

/-- Witness for C3: the concrete offline send followed by a successful
drain has an empty spool. -/
theorem C3_witness :
    (syncOfflineMessages sysC3afterSend 500).spoolCell = SpoolCell.absent :=
  (C3_drain_success_outcome sysC3afterSend
    [("c1", [{ id := "local-100", data := mkBase "alice" "bob" "hi" noOpts true "c1" 100 }])]
    ["srv1"] [] 500 rfl rfl rfl).1

/-- C8: a message submitted by the spool drain is written with its id
field still set to the local value (pruneUndefined strips only undefined
fields before the add), and because query and subscription results are
built with the document data spread after the document id, such a message
reads back under its stored local identifier rather than the server
document id; an online payload has no id field, so it reads back under
the server id.  Concretely, the spooled message "local-7" accepted as
document "srv1" is returned by a subsequent getMessages under
"local-7". -/
theorem C8_drained_message_reads_back_local
    (i : String) (d : MessageData) (t : Int) (docId : String) :
    readDoc (createMessageDoc (some i) d t docId) =
      { id := i, data := { d with createdAt := TsVal.server t,
                                  updatedAt := TsVal.server t } } ∧
    readDoc (createMessageDoc none d t docId) =
      { id := docId, data := { d with createdAt := TsVal.server t,
                                      updatedAt := TsVal.server t } } ∧
    getMessages (syncOfflineMessages sysC8 500).remoteDocs "c1" 50 =
      [{ id := "local-7",
         data := { (mkMsg "local-7" "c1" (.iso 100)).data with
                   createdAt := TsVal.server 500,
                   updatedAt := TsVal.server 500 } }] := by
  exact ⟨rfl, rfl, by decide⟩


/-! ### Offline-send helper lemmas -/

theorem sendMessage_offline_frame (s : Sys) (cid sid rid content : String)
    (opts : SendOptions) (nowIso nowId1 nowId2 t : Int)
    (hoff : opts.offline.getD s.isOfflineMode = true) :
    (sendMessage s cid sid rid content opts nowIso nowId1 nowId2 t).2.remoteDocs =
      s.remoteDocs ∧
    (sendMessage s cid sid rid content opts nowIso nowId1 nowId2 t).2.responses =
      s.responses ∧
    (sendMessage s cid sid rid content opts nowIso nowId1 nowId2 t).2.isOfflineMode =
      s.isOfflineMode := by
  obtain ⟨mem, off, cell, docs, resp⟩ := s
  obtain ⟨oopt, mt, att⟩ := opts
  simp only [Option.getD] at hoff
  cases oopt with
  | some b =>
    simp only at hoff
    subst hoff
    cases cell <;> exact ⟨rfl, rfl, rfl⟩
  | none =>
    simp only at hoff
    subst hoff
    cases cell <;> exact ⟨rfl, rfl, rfl⟩

theorem runSends_offline_no_remote (t : Int) :
    ∀ (qs : List SendReq) (s : Sys), s.isOfflineMode = true →
      (∀ q ∈ qs, q.opts.offline = none ∨ q.opts.offline = some true) →
      (runSends s t qs).remoteDocs = s.remoteDocs ∧
      (runSends s t qs).responses = s.responses ∧
      (runSends s t qs).isOfflineMode = true := by
  intro qs
  induction qs with
  | nil => intro s hs _; exact ⟨rfl, rfl, hs⟩
  | cons q qs ih =>
    intro s hs hall
    have hoff : q.opts.offline.getD s.isOfflineMode = true := by
      rcases hall q (List.mem_cons_self q qs) with h | h <;> simp [h, hs]
    have hfr := sendMessage_offline_frame s q.cid q.senderId q.receiverId q.content
      q.opts q.nowIso q.nowId1 q.nowId2 t hoff
    obtain ⟨h1, h2, h3⟩ := ih
      (sendMessage s q.cid q.senderId q.receiverId q.content q.opts
        q.nowIso q.nowId1 q.nowId2 t).2
      (hfr.2.2.trans hs) (fun q' hq' => hall q' (List.mem_cons_of_mem q hq'))
    exact ⟨h1.trans hfr.1, h2.trans hfr.2.1, h3⟩

/-! ### Claims C2, C5, C6, C9, C10 -/

/-- C2: a sendMessage call whose effective offline flag is true (the
option says so, or the option is absent and offline mode is on) performs
no remote write — the remote collection and the backend response queue
are untouched — and instead appends the message to the in-memory list
under a locally generated "local-"-prefixed identifier with isDelivered
false, and appends a copy to the persisted spool (when the spool record
is readable); moreover an arbitrary sequence of offline sends leaves the
remote collection untouched. -/
theorem C2_offline_send_is_local_only
    (s : Sys) (cid sid rid content : String) (opts : SendOptions)
    (nowIso nowId1 nowId2 t : Int)
    (hoff : opts.offline.getD s.isOfflineMode = true) :
    (sendMessage s cid sid rid content opts nowIso nowId1 nowId2 t).2.remoteDocs =
      s.remoteDocs ∧
    (sendMessage s cid sid rid content opts nowIso nowId1 nowId2 t).2.responses =
      s.responses ∧
    recGet (sendMessage s cid sid rid content opts nowIso nowId1 nowId2
        t).2.messagesByConversation cid =
      recGet s.messagesByConversation cid ++
        [{ id := "local-" ++ toString nowId1,
           data := mkBase sid rid content opts true cid nowIso }] ∧
    (mkBase sid rid content opts true cid nowIso).isDelivered = false ∧
    (s.spoolCell = SpoolCell.absent →
      (sendMessage s cid sid rid content opts nowIso nowId1 nowId2 t).2.spoolCell =
        SpoolCell.valid (recSet [] cid
          [{ id := "local-" ++ toString nowId2,
             data := mkBase sid rid content opts true cid nowIso }])) ∧
    (∀ sp, s.spoolCell = SpoolCell.valid sp →
      (sendMessage s cid sid rid content opts nowIso nowId1 nowId2 t).2.spoolCell =
        SpoolCell.valid (recSet sp cid (recGet sp cid ++
          [{ id := "local-" ++ toString nowId2,
             data := mkBase sid rid content opts true cid nowIso }]))) ∧
    (∀ qs : List SendReq, s.isOfflineMode = true →
      (∀ q ∈ qs, q.opts.offline = none ∨ q.opts.offline = some true) →
      (runSends s t qs).remoteDocs = s.remoteDocs) := by
  obtain ⟨mem, off, cell, docs, resp⟩ := s
  obtain ⟨oopt, mt, att⟩ := opts
  simp only [Option.getD] at hoff
  have hseq : ∀ qs : List SendReq,
      (Sys.mk mem off cell docs resp).isOfflineMode = true →
      (∀ q ∈ qs, q.opts.offline = none ∨ q.opts.offline = some true) →
      (runSends (Sys.mk mem off cell docs resp) t qs).remoteDocs =
        (Sys.mk mem off cell docs resp).remoteDocs :=
    fun qs hs hall => (runSends_offline_no_remote t qs _ hs hall).1
  cases oopt with
  | some b =>
    simp only at hoff
    subst hoff
    cases cell with
    | absent =>
      exact ⟨rfl, rfl, recGet_recSet_self _ _ _, rfl, fun _ => rfl,
        fun sp h => absurd h (by simp), hseq⟩
    | corrupt =>
      exact ⟨rfl, rfl, recGet_recSet_self _ _ _, rfl, fun h => absurd h (by simp),
        fun sp h => absurd h (by simp), hseq⟩
    | valid sp0 =>
      refine ⟨rfl, rfl, recGet_recSet_self _ _ _, rfl, fun h => absurd h (by simp),
        fun sp h => ?_, hseq⟩
      simp only [SpoolCell.valid.injEq] at h
      subst h
      rfl
  | none =>
    simp only at hoff
    subst hoff
    cases cell with
    | absent =>
      exact ⟨rfl, rfl, recGet_recSet_self _ _ _, rfl, fun _ => rfl,
        fun sp h => absurd h (by simp), hseq⟩
    | corrupt =>
      exact ⟨rfl, rfl, recGet_recSet_self _ _ _, rfl, fun h => absurd h (by simp),
        fun sp h => absurd h (by simp), hseq⟩
    | valid sp0 =>
      refine ⟨rfl, rfl, recGet_recSet_self _ _ _, rfl, fun h => absurd h (by simp),
        fun sp h => ?_, hseq⟩
      simp only [SpoolCell.valid.injEq] at h
      subst h
      rfl

/-- Witness for C2: a concrete offline send (offline mode on, no option)
writes nothing to the remote collection. -/
theorem C2_witness :
    (sendMessage sysC3start "c1" "alice" "bob" "hi" noOpts 100 100 100 0).2.remoteDocs =
      sysC3start.remoteDocs :=
  (C2_offline_send_is_local_only sysC3start "c1" "alice" "bob" "hi" noOpts
    100 100 100 0 rfl).1

/-- C6: when the remote submission of an online send fails, the call
rejects with that error, exactly one submission attempt was consumed (no
automatic retry), and local state is untouched: the in-memory map, the
persisted spool cell and the remote collection are all unchanged — no
optimistic update was applied and no fallback spool entry was written. -/
theorem C6_online_send_failure_is_clean
    (s : Sys) (cid sid rid content : String) (opts : SendOptions)
    (nowIso nowId1 nowId2 t : Int) (e : String) (rest : List (Except String String))
    (hoff : opts.offline.getD s.isOfflineMode = false)
    (hresp : s.responses = Except.error e :: rest) :
    (sendMessage s cid sid rid content opts nowIso nowId1 nowId2 t).1 =
      Except.error e ∧
    (sendMessage s cid sid rid content opts nowIso nowId1 nowId2
        t).2.messagesByConversation = s.messagesByConversation ∧
    (sendMessage s cid sid rid content opts nowIso nowId1 nowId2 t).2.spoolCell =
      s.spoolCell ∧
    (sendMessage s cid sid rid content opts nowIso nowId1 nowId2 t).2.remoteDocs =
      s.remoteDocs ∧
    (sendMessage s cid sid rid content opts nowIso nowId1 nowId2 t).2.responses =
      rest := by
  obtain ⟨mem, off, cell, docs, resp⟩ := s
  obtain ⟨oopt, mt, att⟩ := opts
  simp only at hresp
  subst hresp
  simp only [Option.getD] at hoff
  cases oopt with
  | some b =>
    simp only at hoff
    subst hoff
    exact ⟨rfl, rfl, rfl, rfl, rfl⟩
  | none =>
    simp only at hoff
    subst hoff
    exact ⟨rfl, rfl, rfl, rfl, rfl⟩

/-- Witness for C6: a concrete failing online send rejects with the
backend error and leaves the in-memory map unchanged. -/
theorem C6_witness :
    (sendMessage (Sys.mk [] false SpoolCell.absent [] [Except.error "down"])
        "c1" "alice" "bob" "hi" noOpts 100 100 100 0).1 = Except.error "down" ∧
    (sendMessage (Sys.mk [] false SpoolCell.absent [] [Except.error "down"])
        "c1" "alice" "bob" "hi" noOpts 100 100 100 0).2.messagesByConversation = [] :=
  ⟨(C6_online_send_failure_is_clean
      (Sys.mk [] false SpoolCell.absent [] [Except.error "down"])
      "c1" "alice" "bob" "hi" noOpts 100 100 100 0 "down" [] rfl rfl).1,
   (C6_online_send_failure_is_clean
      (Sys.mk [] false SpoolCell.absent [] [Except.error "down"])
      "c1" "alice" "bob" "hi" noOpts 100 100 100 0 "down" [] rfl rfl).2.1⟩

/-- C5 (counterexample): an offline send appends the new message at the
end of the conversation's in-memory list without re-sorting, so a
conversation already holding a later-timestamped message ends up with a
list that is NOT sorted by creation time ascending; and a second offline
send in the same millisecond (same Date.now() value) produces a duplicate
"local-" identifier, so identifiers are not unique either. -/
theorem C5_counterexample :
    recGet ((sendMessage sysC5 "c1" "carol" "dave" "late" noOpts 50 50 50
        0).2).messagesByConversation "c1" =
      [msgLate, { id := "local-50", data := mkBase "carol" "dave" "late" noOpts true "c1" 50 }] ∧
    ¬ (recGet ((sendMessage sysC5 "c1" "carol" "dave" "late" noOpts 50 50 50
        0).2).messagesByConversation "c1").Sorted tsLe ∧
    ¬ (((recGet ((sendMessage ((sendMessage sysC5 "c1" "carol" "dave" "late" noOpts
          50 50 50 0).2) "c1" "carol" "dave" "again" noOpts 50 50 50
          0).2).messagesByConversation "c1").map Message.id).Nodup) := by
  refine ⟨by decide, ?_, ?_⟩
  · intro hs
    have := List.rel_of_sorted_cons hs _ (List.mem_cons_self _ _)
    revert this
    decide
  · decide

/-- C5 (amended): the lists written by a snapshot delivery and by
loadMessages are sorted by resolved creation time ascending (non-strictly:
ties are possible) and contain no duplicate identifiers, provided the
fetched result set has pairwise-distinct identifiers (as backend result
sets do); the claim's further assertion that the invariant survives
sendMessage is refuted by the counterexample, since both send paths
append or merge without re-sorting. -/
theorem C5_sorted_nodup_after_load_and_snapshot
    (s : Sys) (cid : String) (snapshot : List Message)
    (hsnap : (snapshot.map Message.id).Nodup)
    (hq : ((getMessages s.remoteDocs cid 50).map Message.id).Nodup) :
    (recGet (applySnapshot s cid snapshot).messagesByConversation cid).Sorted tsLe ∧
    ((recGet (applySnapshot s cid snapshot).messagesByConversation cid).map
       Message.id).Nodup ∧
    (recGet (loadMessages s cid).messagesByConversation cid).Sorted tsLe ∧
    ((recGet (loadMessages s cid).messagesByConversation cid).map
       Message.id).Nodup := by
  have hsortn : ((sortByTs snapshot).map Message.id).Nodup :=
    ((sortByTs_perm snapshot).map Message.id).nodup_iff.mpr hsnap
  refine ⟨?_, ?_, ?_, ?_⟩
  · unfold applySnapshot
    rw [recGet_recSet_self]
    exact dedupById_sorted _ hsortn (sortByTs_sorted snapshot)
  · unfold applySnapshot
    rw [recGet_recSet_self]
    exact dedupById_id_nodup _
  · unfold loadMessages
    rw [recGet_recSet_self]
    exact dedupById_sorted _ hq (List.sorted_insertionSort tsLe _)
  · unfold loadMessages
    rw [recGet_recSet_self]
    exact dedupById_id_nodup _

/-- Witness for C5 (amended): delivering the snapshot [A,B,C] into an
empty state yields a sorted, duplicate-free list. -/
theorem C5_witness :
    (recGet (applySnapshot (Sys.mk [] false SpoolCell.absent [] []) "c1"
        [msgA, msgB, msgC]).messagesByConversation "c1").Sorted tsLe :=
  (C5_sorted_nodup_after_load_and_snapshot (Sys.mk [] false SpoolCell.absent [] [])
    "c1" [msgA, msgB, msgC] (by decide) (by decide)).1

/-- C9 (counterexample): with a corrupt persisted spool record, an offline
sendMessage rejects — the JSON.parse of the spool in the offline branch is
not inside any try/catch — contradicting the claim that every reader of
the spool swallows deserialization failures. -/
theorem C9_counterexample :
    (sendMessage sysC9 "c1" "alice" "bob" "hi" noOpts 10 10 10 0).1 =
      Except.error "spool-parse-failure" := by
  rfl

/-- C9 (amended): the startup load and syncOfflineMessages wrap the spool
read in try/catch and swallow a deserialization failure, leaving the
state unchanged (treated as no spool data); but an offline sendMessage
parses the spool outside any try/catch, so it rejects — after having
already appended the message to the in-memory list — leaving the corrupt
record in place and performing no remote write. -/
theorem C9_spool_parse_failure_handling
    (s : Sys) (t : Int) (cid sid rid content : String) (opts : SendOptions)
    (nowIso nowId1 nowId2 tcr : Int)
    (hc : s.spoolCell = SpoolCell.corrupt)
    (hoff : opts.offline.getD s.isOfflineMode = true) :
    startupLoad s = s ∧
    syncOfflineMessages s t = s ∧
    (sendMessage s cid sid rid content opts nowIso nowId1 nowId2 tcr).1 =
      Except.error "spool-parse-failure" ∧
    (sendMessage s cid sid rid content opts nowIso nowId1 nowId2 tcr).2.spoolCell =
      SpoolCell.corrupt ∧
    (sendMessage s cid sid rid content opts nowIso nowId1 nowId2 tcr).2.remoteDocs =
      s.remoteDocs ∧
    recGet (sendMessage s cid sid rid content opts nowIso nowId1 nowId2
        tcr).2.messagesByConversation cid =
      recGet s.messagesByConversation cid ++
        [{ id := "local-" ++ toString nowId1,
           data := mkBase sid rid content opts true cid nowIso }] := by
  obtain ⟨mem, off, cell, docs, resp⟩ := s
  simp only at hc
  subst hc
  obtain ⟨oopt, mt, att⟩ := opts
  simp only [Option.getD] at hoff
  cases oopt with
  | some b =>
    simp only at hoff
    subst hoff
    exact ⟨rfl, rfl, rfl, rfl, rfl, recGet_recSet_self _ _ _⟩
  | none =>
    simp only at hoff
    subst hoff
    exact ⟨rfl, rfl, rfl, rfl, rfl, recGet_recSet_self _ _ _⟩

/-- Witness for C9: the concrete corrupt-spool state is left unchanged by
a drain. -/
theorem C9_witness : syncOfflineMessages sysC9 7 = sysC9 :=
  (C9_spool_parse_failure_handling sysC9 7 "c1" "alice" "bob" "hi" noOpts
    10 10 10 0 rfl rfl).2.1

/-- C10: in the conversation list aggregator, a conversation whose profile
is already cached is never looked up again (it is excluded from the fetch
list); in the concrete batch where d1's peer lookup fails and d2's
succeeds, the failure does not block d2 — the updates record carries
exactly d2's resolved profile — and d1 is displayed with the placeholder
name "Direct Message" and the default avatar while d2 shows its resolved
name. -/
theorem C10_aggregator_resilience :
    (∀ (dmProfiles : List (String × Profile)) (convos : List Conversation)
       (c : Conversation), (recFind? dmProfiles c.id).isSome = true →
       c ∉ toFetchList dmProfiles convos) ∧
    toFetchList profilesC10 [convD1, convD2, convD3] = [convD1, convD2] ∧
    resolveProfileUpdates "me" profilesC10 [convD1, convD2, convD3] lookupC10 =
      [("d2", { name := "Bob", avatar := "http-b" })] ∧
    chatName (applyProfileUpdates profilesC10
        (resolveProfileUpdates "me" profilesC10 [convD1, convD2, convD3] lookupC10))
        convD1 = "Direct Message" ∧
    chatAvatar (applyProfileUpdates profilesC10
        (resolveProfileUpdates "me" profilesC10 [convD1, convD2, convD3] lookupC10))
        convD1 = DEFAULT_AVATAR ∧
    chatName (applyProfileUpdates profilesC10
        (resolveProfileUpdates "me" profilesC10 [convD1, convD2, convD3] lookupC10))
        convD2 = "Bob" := by
  refine ⟨?_, by decide, by decide, by decide, by decide, by decide⟩
  intro dmProfiles convos c hsome hmem
  unfold toFetchList at hmem
  have hnone := (List.mem_filter.mp hmem).2
  simp only [Option.isNone_iff_eq_none, decide_eq_true_eq] at hnone
  rw [hnone] at hsome
  simp at hsome

/-- Witness for C10: the cached conversation d3 is excluded from the
fetch list of the concrete batch. -/
theorem C10_witness :
    convD3 ∉ toFetchList profilesC10 [convD1, convD2, convD3] :=
  C10_aggregator_resilience.1 profilesC10 [convD1, convD2, convD3] convD3 (by decide)

end Milo
